import Mathlib

/-!
Verification of the route-tracker graph/state mutation core
(`src/route_tracker/projects.py`) against its natural-language
specification.

The graph store and its node/edge mutators (`route_tracker/graph.py`) are
not part of the provided sources; they are modelled from §4.1 of the
specification.  The project-level operations (`create_project`,
`add_choices_and_selection`, `advance_to_choice`, `link_to_choice`,
`add_ending`) are translated directly from `projects.py`.

Python semantics captured by the embedding:
- node ids are strings; numeric ids print as decimal, ending ids as
  `E<n>`; the two namespaces never collide, so ids are a tagged sum;
- list subscripts follow Python indexing (negative indices count from the
  end, out-of-range raises `IndexError`);
- the operations mutate the `ProjectInfo` object in place, so a raised
  exception leaves every mutation performed before the raise visible;
  each operation therefore returns the (possibly partially mutated)
  state together with an optional error.
-/

namespace RouteTracker

/-- A graph node id: either a numeric choice id (Python `int`, printed in
decimal) or an ending id (Python string `E<n>`). -/
inductive NodeId where
  | num (n : Int)
  | estr (n : Int)
deriving DecidableEq

/-- Node shape attribute: `ellipse` for plain choices, `doublecircle`
while selected, filled `circle` for endings. -/
inductive Shape where
  | ellipse
  | doublecircle
  | endingCircle
deriving DecidableEq

structure Node where
  id : NodeId
  label : String
  shape : Shape
deriving DecidableEq

structure Edge where
  source : NodeId
  target : NodeId
  color : Option String
deriving DecidableEq

structure Graph where
  name : String
  nodes : List Node
  edges : List Edge
deriving DecidableEq

/-- Errors raised by the graph layer and by Python list subscripts. -/
inductive Err where
  | invalidNodeId (id : NodeId)
  | duplicateNode (id : NodeId)
  | indexOutOfRange
  | missingEdge
deriving DecidableEq

def nodeIds (g : Graph) : List NodeId := g.nodes.map Node.id

/-- Modelled from the spec: existence query of the graph store (§2, §4.1);
`graph.py` is not part of the provided sources. -/
def hasNode (g : Graph) (id : NodeId) : Prop := id ∈ nodeIds g

instance (g : Graph) (id : NodeId) : Decidable (hasNode g id) :=
  inferInstanceAs (Decidable (id ∈ nodeIds g))

/-- Modelled from the spec: `addNode(graph, id, label)` of the missing
`graph.py` — inserts a new plain node; the id must not already exist
(the spec leaves duplicates as an implementer-chosen error). -/
def add_node (g : Graph) (id : NodeId) (label : String) : Except Err Graph :=
  if hasNode g id then .error (.duplicateNode id)
  else .ok { g with nodes := g.nodes ++ [⟨id, label, .ellipse⟩] }

/-- Modelled from the spec: `addSelectedNode` of the missing `graph.py` —
like `addNode` but the node is marked as the current cursor
(double-circle shape). -/
def add_selected_node (g : Graph) (id : NodeId) (label : String) :
    Except Err Graph :=
  if hasNode g id then .error (.duplicateNode id)
  else .ok { g with nodes := g.nodes ++ [⟨id, label, .doublecircle⟩] }

/-- Modelled from the spec: `addEndingNode` of the missing `graph.py` —
like `addNode` but the node is marked as a terminal (filled circle). -/
def add_ending_node (g : Graph) (id : NodeId) (label : String) :
    Except Err Graph :=
  if hasNode g id then .error (.duplicateNode id)
  else .ok { g with nodes := g.nodes ++ [⟨id, label, .endingCircle⟩] }

/-- Set the shape of every node carrying the given id (node ids are unique
keys in the underlying graph document, so at most one node is affected in
any reachable graph). -/
def setShape (id : NodeId) (s : Shape) (ns : List Node) : List Node :=
  ns.map fun nd => if nd.id = id then { nd with shape := s } else nd

/-- Modelled from the spec: `selectNode` of the missing `graph.py` — marks
an existing node as the cursor; `InvalidNodeId` if the node is missing. -/
def select_node (g : Graph) (id : NodeId) : Except Err Graph :=
  if hasNode g id then .ok { g with nodes := setShape id .doublecircle g.nodes }
  else .error (.invalidNodeId id)

/-- Modelled from the spec: `deselectNode` of the missing `graph.py` —
clears the cursor mark of an existing node (back to the plain ellipse
shape); `InvalidNodeId` if the node is missing. -/
def deselect_node (g : Graph) (id : NodeId) : Except Err Graph :=
  if hasNode g id then .ok { g with nodes := setShape id .ellipse g.nodes }
  else .error (.invalidNodeId id)

/-- Modelled from the spec: `addEdge` of the missing `graph.py` — inserts a
directed, optionally colored edge; `InvalidNodeId` (carrying the offending
id) if either endpoint is missing. -/
def add_edge (g : Graph) (s t : NodeId) (color : Option String) :
    Except Err Graph :=
  if hasNode g s then
    if hasNode g t then .ok { g with edges := g.edges ++ [⟨s, t, color⟩] }
    else .error (.invalidNodeId t)
  else .error (.invalidNodeId s)

def hasEdge (g : Graph) (s t : NodeId) : Prop :=
  ∃ e ∈ g.edges, e.source = s ∧ e.target = t

instance (g : Graph) (s t : NodeId) : Decidable (hasEdge g s t) :=
  inferInstanceAs (Decidable (∃ e ∈ g.edges, e.source = s ∧ e.target = t))

/-- Recolor the first edge connecting the given endpoints, in place. -/
def recolorFirst (s t : NodeId) (color : String) : List Edge → List Edge
  | [] => []
  | e :: es =>
      if e.source = s ∧ e.target = t then { e with color := some color } :: es
      else e :: recolorFirst s t color es

/-- Modelled from the spec: `markEdge` of the missing `graph.py` —
overwrites the color attribute of an existing edge `s → t` in place
(recoloring a previously uncolored candidate edge rather than duplicating
it). -/
def mark_edge (g : Graph) (s t : NodeId) (color : String) :
    Except Err Graph :=
  if hasEdge g s t then .ok { g with edges := recolorFirst s t color g.edges }
  else .error .missingEdge

/-- Modelled from the spec: `verifyIdExists` of the missing `graph.py` —
existence check failing with `InvalidNodeId(id)` carrying the offending
id. -/
def verify_id_exists (g : Graph) (id : NodeId) : Option Err :=
  if hasNode g id then none else some (.invalidNodeId id)

/-- The effective index of a Python list subscript `l[i]`: negative
indices count from the end. -/
def pyIndex {α : Type} (l : List α) (i : Int) : Int :=
  if i < 0 then i + l.length else i

/-- Python list subscript `l[i]`: negative indices count from the end,
anything out of range raises `IndexError`. -/
def pyGet {α : Type} (l : List α) (i : Int) : Except Err α :=
  if 0 ≤ pyIndex l i then
    match l.get? (pyIndex l i).toNat with
    | some a => .ok a
    | none => .error .indexOutOfRange
  else .error .indexOutOfRange

/-! ## The core operations, translated from `projects.py` -/

def ROUTE_COLORS : List String := ["green", "blue"]

structure ProjectInfo where
  name : String
  graph : Graph
  last_choice_id : Int
  last_generated_id : Int
  next_ending_id : Int
deriving DecidableEq

def emptyGraph (name : String) : Graph := ⟨name, [], []⟩

def _create_graph (name : String) : Graph :=
  match add_selected_node (emptyGraph name) (.num 0) "0. start" with
  | .ok g => g
  | .error _ => emptyGraph name

def create_project (name : String) : ProjectInfo :=
  ⟨name, _create_graph name, 0, 0, 0⟩

/-- The loop body of `_add_choices_to_graph`: for each (label, id) pair in
order, add a plain node and an uncolored edge from the current cursor.
A raise mid-loop keeps everything added so far. -/
def addChoicesLoop (last : Int) :
    List (String × Int) → Graph → Graph × Option Err
  | [], g => (g, none)
  | (label, cid) :: rest, g =>
      match add_node g (.num cid) (toString cid ++ ". " ++ label) with
      | .error e => (g, some e)
      | .ok g1 =>
          match add_edge g1 (.num last) (.num cid) none with
          | .error e => (g1, some e)
          | .ok g2 => addChoicesLoop last rest g2

def _add_choices_to_graph (choices : List String) (info : ProjectInfo) :
    List Int × ProjectInfo × Option Err :=
  let next_id := info.last_generated_id + 1
  let choices_ids := (List.range choices.length).map fun i : Nat => next_id + (i : Int)
  let r := addChoicesLoop info.last_choice_id (choices.zip choices_ids) info.graph
  (choices_ids, { info with graph := r.1 }, r.2)

def _update_selection (info : ProjectInfo) (selected_choice : Int) :
    ProjectInfo × Option Err :=
  match deselect_node info.graph (.num info.last_choice_id) with
  | .error e => (info, some e)
  | .ok g1 =>
      match select_node g1 (.num selected_choice) with
      | .error e => ({ info with graph := g1 }, some e)
      | .ok g2 =>
          match pyGet ROUTE_COLORS info.next_ending_id with
          | .error e => ({ info with graph := g2 }, some e)
          | .ok c =>
              match mark_edge g2 (.num info.last_choice_id)
                  (.num selected_choice) c with
              | .error e => ({ info with graph := g2 }, some e)
              | .ok g3 =>
                  ({ info with graph := g3, last_choice_id := selected_choice },
                   none)

def add_choices_and_selection (info : ProjectInfo) (choices : List String)
    (selected_choice_index : Int) : ProjectInfo × Option Err :=
  match _add_choices_to_graph choices info with
  | (choices_ids, info1, err) =>
      match err with
      | some e => (info1, some e)
      | none =>
          match pyGet choices_ids selected_choice_index with
          | .error e => (info1, some e)
          | .ok selected_choice_id =>
              match _update_selection info1 selected_choice_id with
              | (info2, some e) => (info2, some e)
              | (info2, none) =>
                  match pyGet choices_ids (-1) with
                  | .error e => (info2, some e)
                  | .ok lastId =>
                      ({ info2 with last_generated_id := lastId }, none)

def add_ending (info : ProjectInfo) (ending_label : String)
    (new_choice_id : Int) : ProjectInfo × Option Err :=
  let numeric_ending_id := info.next_ending_id
  let eid := NodeId.estr numeric_ending_id
  let elbl := "E" ++ toString numeric_ending_id ++ ". " ++ ending_label
  match add_ending_node info.graph eid elbl with
  | .error e => (info, some e)
  | .ok g1 =>
      match pyGet ROUTE_COLORS numeric_ending_id with
      | .error e => ({ info with graph := g1 }, some e)
      | .ok c =>
          match add_edge g1 (.num info.last_choice_id) eid (some c) with
          | .error e => ({ info with graph := g1 }, some e)
          | .ok g2 =>
              match deselect_node g2 (.num info.last_choice_id) with
              | .error e => ({ info with graph := g2 }, some e)
              | .ok g3 =>
                  match select_node g3 (.num new_choice_id) with
                  | .error e => ({ info with graph := g3 }, some e)
                  | .ok g4 =>
                      ({ info with graph := g4, last_choice_id := new_choice_id, next_ending_id := numeric_ending_id + 1 }, none)

def advance_to_choice (info : ProjectInfo) (selected_id : Int) :
    ProjectInfo × Option Err :=
  match deselect_node info.graph (.num info.last_choice_id) with
  | .error e => (info, some e)
  | .ok g1 =>
      match select_node g1 (.num selected_id) with
      | .error e => ({ info with graph := g1 }, some e)
      | .ok g2 =>
          match pyGet ROUTE_COLORS info.next_ending_id with
          | .error e => ({ info with graph := g2 }, some e)
          | .ok c =>
              match add_edge g2 (.num info.last_choice_id)
                  (.num selected_id) (some c) with
              | .error e => ({ info with graph := g2 }, some e)
              | .ok g3 =>
                  ({ info with graph := g3, last_choice_id := selected_id },
                   none)

def link_to_choice (info : ProjectInfo) (selected_id : Int) :
    ProjectInfo × Option Err :=
  match verify_id_exists info.graph (.num selected_id) with
  | some e => (info, some e)
  | none =>
      match add_edge info.graph (.num info.last_choice_id)
          (.num selected_id) none with
      | .error e => (info, some e)
      | .ok g => ({ info with graph := g }, none)

/-! ## Derived notions used by the statements -/

/-- The ids of the selected (double-circle) nodes of a node list. -/
def selList (ns : List Node) : List NodeId :=
  (ns.filter fun nd => nd.shape = .doublecircle).map Node.id

/-- The ids of the nodes currently carrying the "selected" (double-circle)
shape attribute. -/
def selectedIds (g : Graph) : List NodeId := selList g.nodes

/-- The node `_add_choices_to_graph` creates for a (label, id) pair. -/
def choiceNode (p : String × Int) : Node :=
  ⟨.num p.2, toString p.2 ++ ". " ++ p.1, .ellipse⟩

/-- The uncolored candidate edge `_add_choices_to_graph` creates from the
cursor `last` to a (label, id) pair. -/
def choiceEdge (last : Int) (p : String × Int) : Edge :=
  ⟨.num last, .num p.2, none⟩

/-- The project-state invariant of §3 of the spec: node ids are unique
keys, exactly one node is selected, and it is the node `last_choice_id`
refers to. -/
def Inv (info : ProjectInfo) : Prop :=
  (nodeIds info.graph).Nodup ∧
    selectedIds info.graph = [NodeId.num info.last_choice_id]

instance (info : ProjectInfo) : Decidable (Inv info) :=
  inferInstanceAs (Decidable ((nodeIds info.graph).Nodup ∧
    selectedIds info.graph = [NodeId.num info.last_choice_id]))

/-- The consecutive integers `a, a+1, …, a+k-1`. -/
def intRange (a : Int) : Nat → List Int
  | 0 => []
  | k + 1 => a :: intRange (a + 1) k

/-- Run a sequence of `add_choices_and_selection` calls, logging the id
batch each call allocates (the first component computed by
`_add_choices_to_graph`). -/
def runBatches :
    ProjectInfo → List (List String × Int) →
      ProjectInfo × List (List Int) × Option Err
  | info, [] => (info, [], none)
  | info, (choices, idx) :: rest =>
      let ids := (_add_choices_to_graph choices info).1
      match add_choices_and_selection info choices idx with
      | (info1, some e) => (info1, [ids], some e)
      | (info1, none) =>
          match runBatches info1 rest with
          | (out, log, err) => (out, ids :: log, err)

/-- Total number of choices over a batch sequence. -/
def totalLen (bs : List (List String × Int)) : Nat :=
  (bs.map fun b => b.1.length).sum

/-- The state of Scenario 3: a fresh project after
`add_choices_and_selection ["choice1", "choice2"] 1`. -/
def scenario3 : ProjectInfo :=
  (add_choices_and_selection (create_project "p") ["choice1", "choice2"] 1).1

/-! ## Lemmas about the node-list primitives -/

theorem selList_nil : selList [] = [] := rfl

theorem selList_cons (nd : Node) (ns : List Node) :
    selList (nd :: ns) =
      if nd.shape = .doublecircle then nd.id :: selList ns else selList ns := by
  by_cases h : nd.shape = .doublecircle <;> simp [selList, List.filter_cons, h]

theorem selList_append (ns ms : List Node) :
    selList (ns ++ ms) = selList ns ++ selList ms := by
  simp [selList, List.filter_append]

theorem setShape_map_id (x : NodeId) (s : Shape) (ns : List Node) :
    (setShape x s ns).map Node.id = ns.map Node.id := by
  induction ns with
  | nil => rfl
  | cons nd rest ih =>
      simp only [setShape, List.map_cons] at ih ⊢
      by_cases h : nd.id = x <;> simp [h, ih]

theorem setShape_of_not_mem (x : NodeId) (s : Shape) :
    ∀ ns : List Node, x ∉ ns.map Node.id → setShape x s ns = ns := by
  intro ns
  induction ns with
  | nil => exact fun _ => rfl
  | cons nd rest ih =>
      intro h
      simp only [List.map_cons, List.mem_cons] at h
      push_neg at h
      simp only [setShape, List.map_cons]
      rw [if_neg (Ne.symm h.1)]
      have := ih h.2
      simp only [setShape] at this
      rw [this]

theorem selList_deselect (x : NodeId) : ∀ ns : List Node,
    selList (setShape x .ellipse ns) =
      (selList ns).filter fun i => decide (i ≠ x) := by
  intro ns
  induction ns with
  | nil => rfl
  | cons nd rest ih =>
      simp only [setShape, List.map_cons] at ih ⊢
      by_cases hid : nd.id = x
      · rw [if_pos hid, selList_cons, selList_cons]
        simp only [Node.mk.injEq] at *
        by_cases hs : nd.shape = Shape.doublecircle
        · simp [hs, hid, ih]
        · simp [hs, hid, ih]
      · rw [if_neg hid, selList_cons, selList_cons]
        by_cases hs : nd.shape = Shape.doublecircle
        · simp [hs, hid, ih]
        · simp [hs, ih]

theorem selList_deselect_self {x : NodeId} {ns : List Node}
    (h : selList ns = [x]) : selList (setShape x .ellipse ns) = [] := by
  rw [selList_deselect, h]
  simp

theorem setShape_cons (x : NodeId) (s : Shape) (nd : Node) (ns : List Node) :
    setShape x s (nd :: ns) =
      (if nd.id = x then { nd with shape := s } else nd) :: setShape x s ns :=
  rfl

theorem selList_select (x : NodeId) : ∀ ns : List Node,
    (ns.map Node.id).Nodup → x ∈ ns.map Node.id → selList ns = [] →
    selList (setShape x .doublecircle ns) = [x] := by
  intro ns
  induction ns with
  | nil => intro _ h; simp at h
  | cons nd rest ih =>
      intro hnd hmem hsel
      simp only [List.map_cons, List.nodup_cons] at hnd
      rw [selList_cons] at hsel
      by_cases hs : nd.shape = Shape.doublecircle
      · rw [if_pos hs] at hsel; cases hsel
      · rw [if_neg hs] at hsel
        simp only [List.map_cons, List.mem_cons] at hmem
        rw [setShape_cons]
        rcases hmem with hm | hm
        · rw [if_pos hm.symm]
          rw [setShape_of_not_mem x Shape.doublecircle rest
            (by rw [hm]; exact hnd.1)]
          rw [selList_cons]
          simp [hsel, hm]
        · have hne : nd.id ≠ x := fun e => hnd.1 (by rw [e]; exact hm)
          rw [if_neg hne, selList_cons, if_neg hs]
          exact ih hnd.2 hm hsel

/-! ## Inversion lemmas for the graph mutators -/

theorem add_node_ok {g : Graph} {id : NodeId} {label : String} {g1 : Graph}
    (h : add_node g id label = .ok g1) :
    ¬ hasNode g id ∧ g1 = { g with nodes := g.nodes ++ [⟨id, label, .ellipse⟩] } := by
  unfold add_node at h
  split at h
  · exact Except.noConfusion h
  · rename_i hx
    cases h
    exact ⟨hx, rfl⟩

theorem add_ending_node_ok {g : Graph} {id : NodeId} {label : String} {g1 : Graph}
    (h : add_ending_node g id label = .ok g1) :
    ¬ hasNode g id ∧
      g1 = { g with nodes := g.nodes ++ [⟨id, label, .endingCircle⟩] } := by
  unfold add_ending_node at h
  split at h
  · exact Except.noConfusion h
  · rename_i hx
    cases h
    exact ⟨hx, rfl⟩

theorem select_node_ok {g : Graph} {id : NodeId} {g1 : Graph}
    (h : select_node g id = .ok g1) :
    hasNode g id ∧ g1 = { g with nodes := setShape id .doublecircle g.nodes } := by
  unfold select_node at h
  split at h
  · rename_i hx
    cases h
    exact ⟨hx, rfl⟩
  · exact Except.noConfusion h

theorem deselect_node_ok {g : Graph} {id : NodeId} {g1 : Graph}
    (h : deselect_node g id = .ok g1) :
    hasNode g id ∧ g1 = { g with nodes := setShape id .ellipse g.nodes } := by
  unfold deselect_node at h
  split at h
  · rename_i hx
    cases h
    exact ⟨hx, rfl⟩
  · exact Except.noConfusion h

theorem add_edge_ok {g : Graph} {s t : NodeId} {c : Option String} {g1 : Graph}
    (h : add_edge g s t c = .ok g1) :
    hasNode g s ∧ hasNode g t ∧
      g1 = { g with edges := g.edges ++ [⟨s, t, c⟩] } := by
  unfold add_edge at h
  split at h
  · rename_i hs
    split at h
    · rename_i ht
      cases h
      exact ⟨hs, ht, rfl⟩
    · exact Except.noConfusion h
  · exact Except.noConfusion h

theorem mark_edge_ok {g : Graph} {s t : NodeId} {c : String} {g1 : Graph}
    (h : mark_edge g s t c = .ok g1) :
    g1 = { g with edges := recolorFirst s t c g.edges } := by
  unfold mark_edge at h
  split at h
  · cases h; rfl
  · exact Except.noConfusion h

theorem verify_id_exists_none {g : Graph} {id : NodeId}
    (h : verify_id_exists g id = none) : hasNode g id := by
  unfold verify_id_exists at h
  split at h
  · assumption
  · exact Option.noConfusion h

theorem verify_id_exists_missing {g : Graph} {id : NodeId}
    (h : ¬ hasNode g id) : verify_id_exists g id = some (.invalidNodeId id) := by
  unfold verify_id_exists
  rw [if_neg h]

/-! ## Lemmas about Python list indexing -/

theorem pyGet_nil {α : Type} (i : Int) :
    pyGet ([] : List α) i = .error .indexOutOfRange := by
  unfold pyGet
  split
  · split
    · rename_i a heq
      rw [List.get?_nil] at heq
      exact Option.noConfusion heq
    · rfl
  · rfl

theorem pyGet_ok_mem {α : Type} {l : List α} {i : Int} {a : α}
    (h : pyGet l i = .ok a) : a ∈ l := by
  unfold pyGet at h
  split at h
  · split at h
    · rename_i b heq
      cases h
      exact List.get?_mem heq
    · exact Except.noConfusion h
  · exact Except.noConfusion h

theorem pyGet_ne_nil {α : Type} {l : List α} {i : Int} {a : α}
    (h : pyGet l i = .ok a) : l ≠ [] := by
  intro e
  rw [e, pyGet_nil] at h
  exact Except.noConfusion h

theorem intRange_length (a : Int) : ∀ k : Nat, (intRange a k).length = k := by
  intro k
  induction k generalizing a with
  | zero => rfl
  | succ k ih => simp [intRange, ih]

theorem intRange_get? (a : Int) : ∀ (k i : Nat), i < k →
    (intRange a k).get? i = some (a + i) := by
  intro k
  induction k generalizing a with
  | zero => intro i h; omega
  | succ k ih =>
      intro i h
      cases i with
      | zero => simp [intRange]
      | succ i =>
          rw [intRange, List.get?_cons_succ, ih (a + 1) i (by omega)]
          congr 1
          push_cast
          omega

theorem intRange_mem (a x : Int) : ∀ k : Nat,
    x ∈ intRange a k ↔ a ≤ x ∧ x < a + k := by
  intro k
  induction k generalizing a with
  | zero =>
      simp only [intRange, List.not_mem_nil, false_iff]
      omega
  | succ k ih =>
      simp only [intRange, List.mem_cons, ih]
      constructor
      · rintro (rfl | ⟨h1, h2⟩) <;> constructor <;> omega
      · rintro ⟨h1, h2⟩
        by_cases hx : x = a
        · exact Or.inl hx
        · right; constructor <;> omega

theorem intRange_nodup (a : Int) : ∀ k : Nat, (intRange a k).Nodup := by
  intro k
  induction k generalizing a with
  | zero => exact List.nodup_nil
  | succ k ih =>
      rw [intRange, List.nodup_cons]
      refine ⟨?_, ih (a + 1)⟩
      rw [intRange_mem]
      omega

theorem intRange_append (a : Int) (m n : Nat) :
    intRange a (m + n) = intRange a m ++ intRange (a + m) n := by
  induction m generalizing a with
  | zero => simp [intRange]
  | succ m ih =>
      have : m + 1 + n = (m + n) + 1 := by omega
      rw [this]
      show a :: intRange (a + 1) (m + n) = (a :: intRange (a + 1) m) ++ _
      rw [ih]
      simp only [List.cons_append, List.cons.injEq, true_and]
      rw [show a + 1 + (m : Int) = a + ((m + 1 : Nat) : Int) by push_cast; omega]

theorem range_map_eq_intRange (a : Int) : ∀ k : Nat,
    (List.range k).map (fun i : Nat => a + (i : Int)) = intRange a k := by
  intro k
  induction k generalizing a with
  | zero => rfl
  | succ k ih =>
      rw [List.range_succ_eq_map, intRange]
      simp only [List.map_cons, List.map_map]
      congr 1
      · push_cast
        omega
      · rw [← ih (a + 1)]
        apply List.map_congr_left
        intro i _
        simp only [Function.comp_apply]
        push_cast
        omega

theorem pyGet_last (a : Int) (k : Nat) (hk : 1 ≤ k) :
    pyGet (intRange a k) (-1) = .ok (a + k - 1) := by
  unfold pyGet pyIndex
  rw [intRange_length]
  rw [if_pos (show (-1 : Int) < 0 by norm_num)]
  rw [if_pos (show (0 : Int) ≤ -1 + (k : Int) by omega)]
  have ht : ((-1 : Int) + (k : Int)).toNat = k - 1 := by omega
  rw [ht, intRange_get? a k (k - 1) (by omega)]
  have hc : ((k - 1 : Nat) : Int) = (k : Int) - 1 := by omega
  rw [hc]
  rw [show a + ((k : Int) - 1) = a + (k : Int) - 1 by omega]

/-! ## Lemmas about the core operations -/

theorem selList_choiceNodes (pairs : List (String × Int)) :
    selList (pairs.map choiceNode) = [] := by
  induction pairs with
  | nil => rfl
  | cons p rest ih =>
      rw [List.map_cons, selList_cons, if_neg (by simp [choiceNode])]
      exact ih

theorem addChoicesLoop_ok (last : Int) :
    ∀ (pairs : List (String × Int)) (g gOut : Graph),
    addChoicesLoop last pairs g = (gOut, none) →
    gOut.name = g.name ∧
    gOut.nodes = g.nodes ++ pairs.map choiceNode ∧
    gOut.edges = g.edges ++ pairs.map (choiceEdge last) ∧
    ((nodeIds g).Nodup → (nodeIds gOut).Nodup) := by
  intro pairs
  induction pairs with
  | nil =>
      intro g gOut h
      simp only [addChoicesLoop] at h
      cases h
      simp
  | cons p rest ih =>
      intro g gOut h
      obtain ⟨label, cid⟩ := p
      simp only [addChoicesLoop] at h
      rcases hn : add_node g (.num cid) (toString cid ++ ". " ++ label)
        with e | g1
      · rw [hn] at h
        simp at h
      · rw [hn] at h
        dsimp only at h
        obtain ⟨hfresh, hg1⟩ := add_node_ok hn
        rcases he : add_edge g1 (.num last) (.num cid) none with e | g2
        · rw [he] at h
          simp at h
        · rw [he] at h
          dsimp only at h
          obtain ⟨_, _, hg2⟩ := add_edge_ok he
          obtain ⟨hname, hnodes, hedges, hnd⟩ := ih g2 gOut h
          subst hg1
          subst hg2
          refine ⟨hname, ?_, ?_, ?_⟩
          · rw [hnodes]
            simp [choiceNode]
          · rw [hedges]
            simp [choiceEdge]
          · intro hg
            apply hnd
            simp only [nodeIds, List.map_append] at *
            rw [List.nodup_append]
            refine ⟨hg, by simp, ?_⟩
            intro a ha
            simp only [List.map_cons, List.map_nil, List.mem_singleton]
            intro hb
            rw [hb] at ha
            exact hfresh ha

theorem _update_selection_ok {info : ProjectInfo} {sel : Int}
    {out : ProjectInfo} (h : _update_selection info sel = (out, none)) :
    ∃ c, pyGet ROUTE_COLORS info.next_ending_id = .ok c ∧
      hasNode info.graph (.num info.last_choice_id) ∧
      hasNode info.graph (.num sel) ∧
      out = { info with
        graph := { info.graph with
          nodes := setShape (.num sel) .doublecircle
            (setShape (.num info.last_choice_id) .ellipse info.graph.nodes),
          edges := recolorFirst (.num info.last_choice_id) (.num sel) c
            info.graph.edges },
        last_choice_id := sel } := by
  unfold _update_selection at h
  rcases hd : deselect_node info.graph (.num info.last_choice_id) with e | g1
  · rw [hd] at h
    simp at h
  · rw [hd] at h
    dsimp only at h
    obtain ⟨hcur, hg1⟩ := deselect_node_ok hd
    rcases hs : select_node g1 (.num sel) with e | g2
    · rw [hs] at h
      simp at h
    · rw [hs] at h
      dsimp only at h
      obtain ⟨hsel, hg2⟩ := select_node_ok hs
      rcases hc : pyGet ROUTE_COLORS info.next_ending_id with e | c
      · rw [hc] at h
        simp at h
      · rw [hc] at h
        dsimp only at h
        rcases hm : mark_edge g2 (.num info.last_choice_id) (.num sel) c
          with e | g3
        · rw [hm] at h
          simp at h
        · rw [hm] at h
          dsimp only at h
          have hg3 := mark_edge_ok hm
          refine ⟨c, rfl, hcur, ?_, ?_⟩
          · subst hg1
            simpa [hasNode, nodeIds, setShape_map_id] using hsel
          · subst hg1
            subst hg2
            subst hg3
            simp only [Prod.mk.injEq, and_true] at h
            exact h.symm

theorem _update_selection_inv {info : ProjectInfo} {sel : Int}
    {out : ProjectInfo} (hInv : Inv info)
    (h : _update_selection info sel = (out, none)) : Inv out := by
  obtain ⟨c, _, _, hsel, hout⟩ := _update_selection_ok h
  obtain ⟨hnd, hsl⟩ := hInv
  subst hout
  constructor
  · simpa only [nodeIds, setShape_map_id] using hnd
  · show selList (setShape (.num sel) .doublecircle
      (setShape (.num info.last_choice_id) .ellipse info.graph.nodes)) = _
    rw [selList_select]
    · rw [setShape_map_id]
      exact hnd
    · rw [setShape_map_id]
      exact hsel
    · exact selList_deselect_self hsl

theorem _add_choices_to_graph_ok {choices : List String}
    {info : ProjectInfo} {ids : List Int} {info1 : ProjectInfo}
    (h : _add_choices_to_graph choices info = (ids, info1, none)) :
    ids = intRange (info.last_generated_id + 1) choices.length ∧
    info1.name = info.name ∧
    info1.last_choice_id = info.last_choice_id ∧
    info1.last_generated_id = info.last_generated_id ∧
    info1.next_ending_id = info.next_ending_id ∧
    info1.graph.name = info.graph.name ∧
    info1.graph.nodes = info.graph.nodes ++ (choices.zip ids).map choiceNode ∧
    info1.graph.edges = info.graph.edges ++
      (choices.zip ids).map (choiceEdge info.last_choice_id) ∧
    ((nodeIds info.graph).Nodup → (nodeIds info1.graph).Nodup) := by
  simp only [_add_choices_to_graph] at h
  rcases hl : addChoicesLoop info.last_choice_id
      (choices.zip ((List.range choices.length).map
        fun i : Nat => info.last_generated_id + 1 + (i : Int))) info.graph
    with ⟨gL, errL⟩
  rw [hl] at h
  simp only [Prod.mk.injEq] at h
  obtain ⟨hids, hinfo1, herr⟩ := h
  subst herr
  obtain ⟨hname, hnodes, hedges, hnd⟩ := addChoicesLoop_ok _ _ _ _ hl
  have hids2 : ids = intRange (info.last_generated_id + 1) choices.length := by
    rw [← hids, range_map_eq_intRange]
  subst hinfo1
  refine ⟨hids2, rfl, rfl, rfl, rfl, hname, ?_, ?_, fun hg => hnd hg⟩
  · rw [hnodes, hids2, ← range_map_eq_intRange]
  · rw [hedges, hids2, ← range_map_eq_intRange]

theorem add_choices_and_selection_ok {info : ProjectInfo}
    {choices : List String} {idx : Int} {out : ProjectInfo}
    (h : add_choices_and_selection info choices idx = (out, none)) :
    ∃ ids info1 sel info2 lastId,
      _add_choices_to_graph choices info = (ids, info1, none) ∧
      pyGet ids idx = .ok sel ∧
      _update_selection info1 sel = (info2, none) ∧
      pyGet ids (-1) = .ok lastId ∧
      out = { info2 with last_generated_id := lastId } := by
  unfold add_choices_and_selection at h
  rcases hac : _add_choices_to_graph choices info with ⟨ids, info1, err⟩
  rw [hac] at h
  dsimp only at h
  cases err with
  | some e => simp at h
  | none =>
      dsimp only at h
      rcases hp : pyGet ids idx with e | sel
      · rw [hp] at h
        simp at h
      · rw [hp] at h
        dsimp only at h
        rcases hu : _update_selection info1 sel with ⟨info2, err2⟩
        rw [hu] at h
        cases err2 with
        | some e => simp at h
        | none =>
            dsimp only at h
            rcases hl : pyGet ids (-1) with e | lastId
            · rw [hl] at h
              simp at h
            · rw [hl] at h
              dsimp only at h
              simp only [Prod.mk.injEq, and_true] at h
              exact ⟨ids, info1, sel, info2, lastId, rfl, hp, hu, hl, h.symm⟩

theorem advance_to_choice_ok {info : ProjectInfo} {sel : Int}
    {out : ProjectInfo} (h : advance_to_choice info sel = (out, none)) :
    ∃ c, pyGet ROUTE_COLORS info.next_ending_id = .ok c ∧
      hasNode info.graph (.num info.last_choice_id) ∧
      hasNode info.graph (.num sel) ∧
      out = { info with
        graph := { info.graph with
          nodes := setShape (.num sel) .doublecircle
            (setShape (.num info.last_choice_id) .ellipse info.graph.nodes),
          edges := info.graph.edges ++
            [⟨.num info.last_choice_id, .num sel, some c⟩] },
        last_choice_id := sel } := by
  unfold advance_to_choice at h
  rcases hd : deselect_node info.graph (.num info.last_choice_id) with e | g1
  · rw [hd] at h
    simp at h
  · rw [hd] at h
    dsimp only at h
    obtain ⟨hcur, hg1⟩ := deselect_node_ok hd
    rcases hs : select_node g1 (.num sel) with e | g2
    · rw [hs] at h
      simp at h
    · rw [hs] at h
      dsimp only at h
      obtain ⟨hsel, hg2⟩ := select_node_ok hs
      rcases hc : pyGet ROUTE_COLORS info.next_ending_id with e | c
      · rw [hc] at h
        simp at h
      · rw [hc] at h
        dsimp only at h
        rcases ha : add_edge g2 (.num info.last_choice_id) (.num sel) (some c)
          with e | g3
        · rw [ha] at h
          simp at h
        · rw [ha] at h
          dsimp only at h
          obtain ⟨_, _, hg3⟩ := add_edge_ok ha
          refine ⟨c, rfl, hcur, ?_, ?_⟩
          · subst hg1
            simpa [hasNode, nodeIds, setShape_map_id] using hsel
          · subst hg1
            subst hg2
            subst hg3
            simp only [Prod.mk.injEq, and_true] at h
            exact h.symm

theorem link_to_choice_frame (info : ProjectInfo) (sel : Int) :
    (link_to_choice info sel).1.name = info.name ∧
    (link_to_choice info sel).1.graph.nodes = info.graph.nodes ∧
    (link_to_choice info sel).1.last_choice_id = info.last_choice_id ∧
    (link_to_choice info sel).1.last_generated_id = info.last_generated_id ∧
    (link_to_choice info sel).1.next_ending_id = info.next_ending_id := by
  unfold link_to_choice
  rcases hv : verify_id_exists info.graph (.num sel) with _ | e
  · dsimp only
    rcases ha : add_edge info.graph (.num info.last_choice_id) (.num sel) none
      with e | g
    · simp
    · obtain ⟨_, _, hg⟩ := add_edge_ok ha
      subst hg
      simp
  · simp

theorem link_to_choice_success {info : ProjectInfo} {sel : Int}
    (hs : hasNode info.graph (.num info.last_choice_id))
    (ht : hasNode info.graph (.num sel)) :
    link_to_choice info sel =
      ({ info with graph := { info.graph with
          edges := info.graph.edges ++
            [⟨.num info.last_choice_id, .num sel, none⟩] } },
       none) := by
  unfold link_to_choice verify_id_exists add_edge
  rw [if_pos ht]
  dsimp only
  rw [if_pos hs, if_pos ht]

theorem link_to_choice_missing {info : ProjectInfo} {sel : Int}
    (ht : ¬ hasNode info.graph (.num sel)) :
    link_to_choice info sel = (info, some (.invalidNodeId (.num sel))) := by
  unfold link_to_choice
  rw [verify_id_exists_missing ht]

theorem add_ending_ok {info : ProjectInfo} {lbl : String} {nc : Int}
    {out : ProjectInfo} (h : add_ending info lbl nc = (out, none)) :
    ∃ c, pyGet ROUTE_COLORS info.next_ending_id = .ok c ∧
      ¬ hasNode info.graph (.estr info.next_ending_id) ∧
      hasNode info.graph (.num info.last_choice_id) ∧
      hasNode info.graph (.num nc) ∧
      out = { info with
        graph := { info.graph with
          nodes := setShape (.num nc) .doublecircle
            (setShape (.num info.last_choice_id) .ellipse
              (info.graph.nodes ++
                [⟨.estr info.next_ending_id,
                  "E" ++ toString info.next_ending_id ++ ". " ++ lbl,
                  .endingCircle⟩])),
          edges := info.graph.edges ++
            [⟨.num info.last_choice_id, .estr info.next_ending_id, some c⟩] },
        last_choice_id := nc,
        next_ending_id := info.next_ending_id + 1 } := by
  unfold add_ending at h
  dsimp only at h
  rcases hen : add_ending_node info.graph (.estr info.next_ending_id)
      ("E" ++ toString info.next_ending_id ++ ". " ++ lbl) with e | g1
  · rw [hen] at h
    simp at h
  · rw [hen] at h
    dsimp only at h
    obtain ⟨hfresh, hg1⟩ := add_ending_node_ok hen
    rcases hc : pyGet ROUTE_COLORS info.next_ending_id with e | c
    · rw [hc] at h
      simp at h
    · rw [hc] at h
      dsimp only at h
      rcases ha : add_edge g1 (.num info.last_choice_id)
          (.estr info.next_ending_id) (some c) with e | g2
      · rw [ha] at h
        simp at h
      · rw [ha] at h
        dsimp only at h
        obtain ⟨hs1, _, hg2⟩ := add_edge_ok ha
        rcases hd : deselect_node g2 (.num info.last_choice_id) with e | g3
        · rw [hd] at h
          simp at h
        · rw [hd] at h
          dsimp only at h
          obtain ⟨_, hg3⟩ := deselect_node_ok hd
          rcases hsel : select_node g3 (.num nc) with e | g4
          · rw [hsel] at h
            simp at h
          · rw [hsel] at h
            dsimp only at h
            obtain ⟨hs4, hg4⟩ := select_node_ok hsel
            refine ⟨c, rfl, hfresh, ?_, ?_, ?_⟩
            · subst hg1
              simp only [hasNode, nodeIds, List.map_append, List.mem_append,
                List.map_cons, List.map_nil, List.mem_singleton] at hs1
              rcases hs1 with hs1 | hs1
              · exact hs1
              · exact absurd hs1 (by simp)
            · subst hg1
              subst hg2
              subst hg3
              simp only [hasNode, nodeIds, setShape_map_id, List.map_append,
                List.mem_append, List.map_cons, List.map_nil,
                List.mem_singleton] at hs4
              rcases hs4 with hs4 | hs4
              · exact hs4
              · exact absurd hs4 (by simp)
            · subst hg1
              subst hg2
              subst hg3
              subst hg4
              simp only [Prod.mk.injEq, and_true] at h
              exact h.symm

/-! ## Invariant preservation -/

theorem create_project_inv (name : String) : Inv (create_project name) := by
  constructor
  · show ([NodeId.num 0] : List NodeId).Nodup
    simp
  · rfl

theorem add_choices_inv {info : ProjectInfo} {choices : List String}
    {idx : Int} {out : ProjectInfo} (hInv : Inv info)
    (h : add_choices_and_selection info choices idx = (out, none)) :
    Inv out := by
  obtain ⟨ids, info1, sel, info2, lastId, hac, hp, hu, hl, hout⟩ :=
    add_choices_and_selection_ok h
  obtain ⟨hids, _, hlc, _, _, _, hnodes, hedges, hnd⟩ :=
    _add_choices_to_graph_ok hac
  have hInv1 : Inv info1 := by
    constructor
    · exact hnd hInv.1
    · show selList info1.graph.nodes = _
      rw [hnodes, selList_append, selList_choiceNodes, List.append_nil, hlc]
      exact hInv.2
  have hInv2 : Inv info2 := _update_selection_inv hInv1 hu
  subst hout
  exact ⟨hInv2.1, hInv2.2⟩

theorem advance_inv {info : ProjectInfo} {sel : Int} {out : ProjectInfo}
    (hInv : Inv info) (h : advance_to_choice info sel = (out, none)) :
    Inv out := by
  obtain ⟨c, _, hcur, hsel, hout⟩ := advance_to_choice_ok h
  subst hout
  constructor
  · simpa only [nodeIds, setShape_map_id] using hInv.1
  · show selList (setShape (.num sel) .doublecircle
      (setShape (.num info.last_choice_id) .ellipse info.graph.nodes)) = _
    rw [selList_select]
    · rw [setShape_map_id]
      exact hInv.1
    · rw [setShape_map_id]
      exact hsel
    · exact selList_deselect_self hInv.2

theorem link_inv {info : ProjectInfo} {sel : Int} {out : ProjectInfo}
    (hInv : Inv info) (h : link_to_choice info sel = (out, none)) :
    Inv out := by
  have hout : out = (link_to_choice info sel).1 := by
    rw [h]
  obtain ⟨_, hnodes, hlc, _, _⟩ := link_to_choice_frame info sel
  subst hout
  constructor
  · show (nodeIds (link_to_choice info sel).1.graph).Nodup
    unfold nodeIds
    rw [hnodes]
    exact hInv.1
  · show selList (link_to_choice info sel).1.graph.nodes = _
    rw [hnodes, hlc]
    exact hInv.2

theorem add_ending_inv {info : ProjectInfo} {lbl : String} {nc : Int}
    {out : ProjectInfo} (hInv : Inv info)
    (h : add_ending info lbl nc = (out, none)) : Inv out := by
  obtain ⟨c, _, hfresh, hcur, hnc, hout⟩ := add_ending_ok h
  subst hout
  have hnd1 : (nodeIds info.graph ++ [NodeId.estr info.next_ending_id]).Nodup := by
    rw [List.nodup_append]
    refine ⟨hInv.1, by simp, ?_⟩
    intro a ha
    simp only [List.mem_singleton]
    intro hb
    rw [hb] at ha
    exact hfresh ha
  constructor
  · show (nodeIds _).Nodup
    simp only [nodeIds, setShape_map_id, List.map_append, List.map_cons,
      List.map_nil]
    exact hnd1
  · show selList (setShape (.num nc) .doublecircle
      (setShape (.num info.last_choice_id) .ellipse _)) = _
    rw [selList_select]
    · rw [setShape_map_id]
      simpa only [nodeIds, List.map_append, List.map_cons, List.map_nil]
        using hnd1
    · rw [setShape_map_id]
      simp only [List.map_append, List.map_cons, List.map_nil,
        List.mem_append, List.mem_singleton]
      exact Or.inl hnc
    · apply selList_deselect_self
      rw [selList_append]
      have : selList [(⟨.estr info.next_ending_id,
          "E" ++ toString info.next_ending_id ++ ". " ++ lbl,
          .endingCircle⟩ : Node)] = [] := rfl
      rw [this, List.append_nil]
      exact hInv.2

/-! ## Forward evaluation lemmas -/

theorem mem_ids_of_mem_selList {ns : List Node} {x : NodeId}
    (h : x ∈ selList ns) : x ∈ ns.map Node.id := by
  simp only [selList, List.mem_map, List.mem_filter] at h ⊢
  obtain ⟨nd, ⟨hmem, _⟩, hid⟩ := h
  exact ⟨nd, hmem, hid⟩

theorem mem_choiceNode_ids {choices : List String} {ids : List Int} {x : Int}
    (hlen : ids.length ≤ choices.length) (hx : x ∈ ids) :
    NodeId.num x ∈ ((choices.zip ids).map choiceNode).map Node.id := by
  have hsnd : (choices.zip ids).map Prod.snd = ids :=
    List.map_snd_zip choices ids hlen
  rw [← hsnd] at hx
  simp only [List.map_map, List.mem_map] at hx ⊢
  obtain ⟨p, hp, hpx⟩ := hx
  refine ⟨p, hp, ?_⟩
  simp only [Function.comp_apply, choiceNode, hpx]

theorem pyGet_route_colors_big {n : Int} (hn : 2 ≤ n) :
    pyGet ROUTE_COLORS n = .error .indexOutOfRange := by
  unfold pyGet pyIndex
  rw [if_neg (show ¬ n < 0 by omega)]
  rw [if_pos (show (0 : Int) ≤ n by omega)]
  have hno : ROUTE_COLORS.get? n.toNat = none := by
    rw [List.get?_eq_none]
    show 2 ≤ n.toNat
    omega
  rw [hno]

theorem advance_to_choice_success {info : ProjectInfo} {sel : Int} {c : String}
    (hcur : hasNode info.graph (.num info.last_choice_id))
    (hsel : hasNode info.graph (.num sel))
    (hc : pyGet ROUTE_COLORS info.next_ending_id = .ok c) :
    advance_to_choice info sel =
      ({ info with
        graph := { info.graph with
          nodes := setShape (.num sel) .doublecircle
            (setShape (.num info.last_choice_id) .ellipse info.graph.nodes),
          edges := info.graph.edges ++
            [⟨.num info.last_choice_id, .num sel, some c⟩] },
        last_choice_id := sel }, none) := by
  unfold advance_to_choice deselect_node
  rw [if_pos hcur]
  dsimp only
  unfold select_node
  rw [if_pos (show hasNode { info.graph with
      nodes := setShape (.num info.last_choice_id) .ellipse info.graph.nodes }
      (.num sel) from by
    simpa [hasNode, nodeIds, setShape_map_id] using hsel)]
  dsimp only
  rw [hc]
  dsimp only
  unfold add_edge
  rw [if_pos (show hasNode _ (.num info.last_choice_id) from by
    simpa [hasNode, nodeIds, setShape_map_id] using hcur)]
  rw [if_pos (show hasNode _ (.num sel) from by
    simpa [hasNode, nodeIds, setShape_map_id] using hsel)]

theorem advance_to_choice_missing {info : ProjectInfo} {sel : Int}
    (hcur : hasNode info.graph (.num info.last_choice_id))
    (hmiss : ¬ hasNode info.graph (.num sel)) :
    advance_to_choice info sel =
      ({ info with graph := { info.graph with
          nodes := setShape (.num info.last_choice_id) .ellipse
            info.graph.nodes } },
       some (.invalidNodeId (.num sel))) := by
  unfold advance_to_choice deselect_node
  rw [if_pos hcur]
  dsimp only
  unfold select_node
  rw [if_neg (show ¬ hasNode { info.graph with
      nodes := setShape (.num info.last_choice_id) .ellipse info.graph.nodes }
      (.num sel) from by
    simpa [hasNode, nodeIds, setShape_map_id] using hmiss)]

theorem advance_to_choice_palette {info : ProjectInfo} {sel : Int}
    (hcur : hasNode info.graph (.num info.last_choice_id))
    (hsel : hasNode info.graph (.num sel))
    (hn : 2 ≤ info.next_ending_id) :
    advance_to_choice info sel =
      ({ info with graph := { info.graph with
          nodes := setShape (.num sel) .doublecircle
            (setShape (.num info.last_choice_id) .ellipse
              info.graph.nodes) } },
       some .indexOutOfRange) := by
  unfold advance_to_choice deselect_node
  rw [if_pos hcur]
  dsimp only
  unfold select_node
  rw [if_pos (show hasNode { info.graph with
      nodes := setShape (.num info.last_choice_id) .ellipse info.graph.nodes }
      (.num sel) from by
    simpa [hasNode, nodeIds, setShape_map_id] using hsel)]
  dsimp only
  rw [pyGet_route_colors_big hn]

theorem _update_selection_palette {info : ProjectInfo} {sel : Int}
    (hcur : hasNode info.graph (.num info.last_choice_id))
    (hsel : hasNode info.graph (.num sel))
    (hn : 2 ≤ info.next_ending_id) :
    _update_selection info sel =
      ({ info with graph := { info.graph with
          nodes := setShape (.num sel) .doublecircle
            (setShape (.num info.last_choice_id) .ellipse
              info.graph.nodes) } },
       some .indexOutOfRange) := by
  unfold _update_selection deselect_node
  rw [if_pos hcur]
  dsimp only
  unfold select_node
  rw [if_pos (show hasNode { info.graph with
      nodes := setShape (.num info.last_choice_id) .ellipse info.graph.nodes }
      (.num sel) from by
    simpa [hasNode, nodeIds, setShape_map_id] using hsel)]
  dsimp only
  rw [pyGet_route_colors_big hn]

theorem add_ending_success {info : ProjectInfo} {lbl : String} {nc : Int}
    {c : String}
    (hfresh : ¬ hasNode info.graph (.estr info.next_ending_id))
    (hc : pyGet ROUTE_COLORS info.next_ending_id = .ok c)
    (hcur : hasNode info.graph (.num info.last_choice_id))
    (hnc : hasNode info.graph (.num nc)) :
    add_ending info lbl nc =
      ({ info with
        graph := { info.graph with
          nodes := setShape (.num nc) .doublecircle
            (setShape (.num info.last_choice_id) .ellipse
              (info.graph.nodes ++
                [⟨.estr info.next_ending_id,
                  "E" ++ toString info.next_ending_id ++ ". " ++ lbl,
                  .endingCircle⟩])),
          edges := info.graph.edges ++
            [⟨.num info.last_choice_id, .estr info.next_ending_id, some c⟩] },
        last_choice_id := nc,
        next_ending_id := info.next_ending_id + 1 }, none) := by
  unfold add_ending add_ending_node
  dsimp only
  rw [if_neg hfresh]
  dsimp only
  rw [hc]
  dsimp only
  unfold add_edge
  rw [if_pos (show hasNode _ (.num info.last_choice_id) from by
    simp only [hasNode, nodeIds, List.map_append, List.mem_append]
    exact Or.inl hcur)]
  rw [if_pos (show hasNode _ (.estr info.next_ending_id) from by
    simp [hasNode, nodeIds])]
  dsimp only
  unfold deselect_node
  rw [if_pos (show hasNode _ (.num info.last_choice_id) from by
    simp only [hasNode, nodeIds, List.map_append, List.mem_append]
    exact Or.inl hcur)]
  dsimp only
  unfold select_node
  rw [if_pos (show hasNode _ (.num nc) from by
    simp only [hasNode, nodeIds, setShape_map_id, List.map_append,
      List.mem_append]
    exact Or.inl hnc)]

theorem add_ending_missing {info : ProjectInfo} {lbl : String} {nc : Int}
    {c : String}
    (hfresh : ¬ hasNode info.graph (.estr info.next_ending_id))
    (hc : pyGet ROUTE_COLORS info.next_ending_id = .ok c)
    (hcur : hasNode info.graph (.num info.last_choice_id))
    (hmiss : ¬ hasNode info.graph (.num nc)) :
    add_ending info lbl nc =
      ({ info with
        graph := { info.graph with
          nodes := setShape (.num info.last_choice_id) .ellipse
            (info.graph.nodes ++
              [⟨.estr info.next_ending_id,
                "E" ++ toString info.next_ending_id ++ ". " ++ lbl,
                .endingCircle⟩]),
          edges := info.graph.edges ++
            [⟨.num info.last_choice_id, .estr info.next_ending_id, some c⟩] } },
       some (.invalidNodeId (.num nc))) := by
  unfold add_ending add_ending_node
  dsimp only
  rw [if_neg hfresh]
  dsimp only
  rw [hc]
  dsimp only
  unfold add_edge
  rw [if_pos (show hasNode _ (.num info.last_choice_id) from by
    simp only [hasNode, nodeIds, List.map_append, List.mem_append]
    exact Or.inl hcur)]
  rw [if_pos (show hasNode _ (.estr info.next_ending_id) from by
    simp [hasNode, nodeIds])]
  dsimp only
  unfold deselect_node
  rw [if_pos (show hasNode _ (.num info.last_choice_id) from by
    simp only [hasNode, nodeIds, List.map_append, List.mem_append]
    exact Or.inl hcur)]
  dsimp only
  unfold select_node
  rw [if_neg (show ¬ hasNode _ (.num nc) from by
    simp only [hasNode, nodeIds, setShape_map_id, List.map_append,
      List.mem_append, List.map_cons, List.map_nil, List.mem_singleton]
    rintro (h | h)
    · exact hmiss h
    · exact NodeId.noConfusion h)]

theorem add_ending_palette {info : ProjectInfo} {lbl : String} {nc : Int}
    (hfresh : ¬ hasNode info.graph (.estr info.next_ending_id))
    (hn : 2 ≤ info.next_ending_id) :
    add_ending info lbl nc =
      ({ info with
        graph := { info.graph with
          nodes := info.graph.nodes ++
            [⟨.estr info.next_ending_id,
              "E" ++ toString info.next_ending_id ++ ". " ++ lbl,
              .endingCircle⟩] } },
       some .indexOutOfRange) := by
  unfold add_ending add_ending_node
  dsimp only
  rw [if_neg hfresh]
  dsimp only
  rw [pyGet_route_colors_big hn]

theorem add_choices_empty (info : ProjectInfo) (idx : Int) :
    add_choices_and_selection info [] idx = (info, some .indexOutOfRange) := by
  unfold add_choices_and_selection
  rw [show _add_choices_to_graph [] info = ([], info, none) from rfl]
  dsimp only
  rw [pyGet_nil idx]

/-! ## Id allocation lemmas -/

theorem add_choices_ok_alloc {info : ProjectInfo} {choices : List String}
    {idx : Int} {out : ProjectInfo}
    (h : add_choices_and_selection info choices idx = (out, none)) :
    (_add_choices_to_graph choices info).1 =
      intRange (info.last_generated_id + 1) choices.length ∧
    1 ≤ choices.length ∧
    out.last_generated_id = info.last_generated_id + choices.length := by
  obtain ⟨ids, info1, sel, info2, lastId, hac, hp, hu, hl, hout⟩ :=
    add_choices_and_selection_ok h
  obtain ⟨hids, -, -, -, -, -, -, -, -⟩ := _add_choices_to_graph_ok hac
  have hk : 1 ≤ choices.length := by
    rcases Nat.eq_zero_or_pos choices.length with h0 | h1
    · exfalso
      apply pyGet_ne_nil hp
      rw [hids, h0]
      rfl
    · exact h1
  refine ⟨by rw [hac]; exact hids, hk, ?_⟩
  subst hout
  show lastId = info.last_generated_id + choices.length
  rw [hids, pyGet_last _ _ hk] at hl
  injection hl with hv
  omega

theorem runBatches_ok : ∀ (bs : List (List String × Int))
    {info out : ProjectInfo} {log : List (List Int)},
    runBatches info bs = (out, log, none) →
    out.last_generated_id = info.last_generated_id + totalLen bs ∧
    log.flatten = intRange (info.last_generated_id + 1) (totalLen bs) := by
  intro bs
  induction bs with
  | nil =>
      intro info out log h
      simp only [runBatches, Prod.mk.injEq] at h
      obtain ⟨h1, h2, -⟩ := h
      subst h1
      subst h2
      simp [totalLen, intRange]
  | cons b rest ih =>
      intro info out log h
      obtain ⟨choices, idx⟩ := b
      simp only [runBatches] at h
      rcases hadd : add_choices_and_selection info choices idx with ⟨info1, err⟩
      rw [hadd] at h
      cases err with
      | some e => simp at h
      | none =>
          dsimp only at h
          rcases hrun : runBatches info1 rest with ⟨out1, log1, err1⟩
          rw [hrun] at h
          dsimp only at h
          simp only [Prod.mk.injEq] at h
          obtain ⟨hout, hlog, herr⟩ := h
          subst hout
          subst herr
          obtain ⟨ihg, ihj⟩ := ih hrun
          obtain ⟨ha1, hk, ha2⟩ := add_choices_ok_alloc hadd
          constructor
          · rw [ihg, ha2]
            have : totalLen ((choices, idx) :: rest) =
                choices.length + totalLen rest := by
              simp [totalLen, List.sum_cons]
            rw [this]
            push_cast
            ring
          · rw [← hlog]
            rw [List.flatten_cons, ha1, ihj, ha2]
            have ht : totalLen ((choices, idx) :: rest) =
                choices.length + totalLen rest := by
              simp [totalLen, List.sum_cons]
            rw [ht, intRange_append]
            have : info.last_generated_id + 1 + (choices.length : Int) =
                info.last_generated_id + (choices.length : Int) + 1 := by ring
            rw [this]

/-! ## Claim theorems -/

/-- C1: Single-selection invariant — `create_project` establishes the
invariant (unique node ids, exactly one selected node, and it is the
cursor `last_choice_id`), and every core operation that completes without
raising (`add_choices_and_selection`, `advance_to_choice`,
`link_to_choice`, `add_ending`) preserves it, so the graph always has
exactly one node marked selected. -/
theorem C1_single_selection_invariant :
    (∀ name : String, Inv (create_project name)) ∧
    (∀ (info : ProjectInfo) (choices : List String) (idx : Int)
        (out : ProjectInfo), Inv info →
      add_choices_and_selection info choices idx = (out, none) → Inv out) ∧
    (∀ (info : ProjectInfo) (sel : Int) (out : ProjectInfo), Inv info →
      advance_to_choice info sel = (out, none) → Inv out) ∧
    (∀ (info : ProjectInfo) (sel : Int) (out : ProjectInfo), Inv info →
      link_to_choice info sel = (out, none) → Inv out) ∧
    (∀ (info : ProjectInfo) (lbl : String) (nc : Int) (out : ProjectInfo),
      Inv info → add_ending info lbl nc = (out, none) → Inv out) :=
  ⟨create_project_inv,
   fun _ _ _ _ hInv h => add_choices_inv hInv h,
   fun _ _ _ hInv h => advance_inv hInv h,
   fun _ _ _ hInv h => link_inv hInv h,
   fun _ _ _ _ hInv h => add_ending_inv hInv h⟩

theorem C1_single_selection_invariant_witness :
    Inv (add_choices_and_selection (create_project "p") ["choice1"] 0).1 :=
  C1_single_selection_invariant.2.1 (create_project "p") ["choice1"] 0
    (add_choices_and_selection (create_project "p") ["choice1"] 0).1
    (by decide) (by decide)

/-- C2 counterexample: `advance_to_choice` on a fresh project, targeting
the non-existent id 999, raises `InvalidNodeId 999` but does NOT leave the
Project State exactly as it was: the start node has been deselected
(mutation happens before validation), so the claim as stated is false. -/
theorem C2_atomicity_counterexample :
    (advance_to_choice (create_project "p") 999).2 =
      some (.invalidNodeId (.num 999)) ∧
    (advance_to_choice (create_project "p") 999).1 ≠ create_project "p" ∧
    selectedIds (advance_to_choice (create_project "p") 999).1.graph = [] := by
  decide

/-- C2 (amended): when a core operation raises `InvalidNodeId` because a
referenced node id does not exist, the error carries the offending id and
the three counters are unchanged; `link_to_choice` additionally leaves the
whole state untouched, but `advance_to_choice` leaves the old cursor
deselected, and `add_ending` leaves the new ending node, its colored edge
and the deselected cursor behind. -/
theorem C2_atomicity_amended :
    (∀ (info : ProjectInfo) (sel : Int),
      hasNode info.graph (.num info.last_choice_id) →
      ¬ hasNode info.graph (.num sel) →
      advance_to_choice info sel =
        ({ info with graph := { info.graph with
            nodes := setShape (.num info.last_choice_id) .ellipse
              info.graph.nodes } },
         some (.invalidNodeId (.num sel)))) ∧
    (∀ (info : ProjectInfo) (lbl : String) (nc : Int) (c : String),
      ¬ hasNode info.graph (.estr info.next_ending_id) →
      pyGet ROUTE_COLORS info.next_ending_id = .ok c →
      hasNode info.graph (.num info.last_choice_id) →
      ¬ hasNode info.graph (.num nc) →
      (add_ending info lbl nc).2 = some (.invalidNodeId (.num nc)) ∧
      (add_ending info lbl nc).1.last_choice_id = info.last_choice_id ∧
      (add_ending info lbl nc).1.last_generated_id =
        info.last_generated_id ∧
      (add_ending info lbl nc).1.next_ending_id = info.next_ending_id) ∧
    (∀ (info : ProjectInfo) (sel : Int),
      ¬ hasNode info.graph (.num sel) →
      link_to_choice info sel = (info, some (.invalidNodeId (.num sel)))) := by
  refine ⟨?_, ?_, ?_⟩
  · intro info sel hcur hmiss
    exact advance_to_choice_missing hcur hmiss
  · intro info lbl nc c hfresh hc hcur hmiss
    rw [add_ending_missing hfresh hc hcur hmiss]
    exact ⟨rfl, rfl, rfl, rfl⟩
  · intro info sel hmiss
    exact link_to_choice_missing hmiss

theorem C2_atomicity_amended_witness :
    link_to_choice (create_project "p") 7 =
      (create_project "p", some (.invalidNodeId (.num 7))) :=
  C2_atomicity_amended.2.2 (create_project "p") 7 (by decide)

/-- C3: on a fresh project, `add_choices_and_selection ["choice1",
"choice2"] 1` succeeds and yields nodes 1 and 2 with labels "1. choice1"
and "2. choice2", an uncolored edge 0→1, an edge 0→2 colored green
(`ROUTE_COLORS[0]`), node 2 as the unique selected node,
`last_choice_id = 2`, `last_generated_id = 2`, `next_ending_id = 0`. -/
theorem C3_batch_add_fresh_project :
    (add_choices_and_selection (create_project "p")
      ["choice1", "choice2"] 1).2 = none ∧
    scenario3.graph.nodes =
      [⟨.num 0, "0. start", .ellipse⟩, ⟨.num 1, "1. choice1", .ellipse⟩,
       ⟨.num 2, "2. choice2", .doublecircle⟩] ∧
    scenario3.graph.edges =
      [⟨.num 0, .num 1, none⟩, ⟨.num 0, .num 2, some "green"⟩] ∧
    selectedIds scenario3.graph = [.num 2] ∧
    scenario3.last_choice_id = 2 ∧
    scenario3.last_generated_id = 2 ∧
    scenario3.next_ending_id = 0 ∧
    ROUTE_COLORS.get? 0 = some "green" := by
  decide

/-- C7: `create_project name` returns a state whose graph has exactly one
node, id 0, label "0. start", marked selected, with all three counters
zero. -/
theorem C7_create_project (name : String) :
    (create_project name).graph.nodes =
      [⟨.num 0, "0. start", .doublecircle⟩] ∧
    selectedIds (create_project name).graph = [.num 0] ∧
    (create_project name).last_choice_id = 0 ∧
    (create_project name).last_generated_id = 0 ∧
    (create_project name).next_ending_id = 0 :=
  ⟨rfl, rfl, rfl, rfl, rfl⟩

/-- C10: calling `add_choices_and_selection` with an empty choices list
and any selected index raises `IndexError` and leaves the state (graph
and all counters) exactly unchanged. -/
theorem C10_empty_batch_rejected (info : ProjectInfo) (idx : Int) :
    add_choices_and_selection info [] idx = (info, some .indexOutOfRange) :=
  add_choices_empty info idx

/-- C4 counterexample: a state satisfying all the claim's hypotheses (the
cursor node 2 exists, the target node 1 exists, `next_ending_id = 2`) on
which `add_ending` raises `IndexError` from the `ROUTE_COLORS` lookup and
does not increment `next_ending_id`, so the claim as stated is false. -/
theorem C4_add_ending_counterexample :
    hasNode { scenario3 with next_ending_id := 2 }.graph
      (.num { scenario3 with next_ending_id := 2 }.last_choice_id) ∧
    hasNode { scenario3 with next_ending_id := 2 }.graph (.num 1) ∧
    (add_ending { scenario3 with next_ending_id := 2 } "the end" 1).2 =
      some .indexOutOfRange ∧
    (add_ending { scenario3 with next_ending_id := 2 }
      "the end" 1).1.next_ending_id = 2 := by
  decide

/-- C4 (amended): under the additional preconditions that
`next_ending_id` is a valid `ROUTE_COLORS` index and the ending id
`E<next_ending_id>` is not yet a node, `add_ending` adds the ending node
`E<n>` labelled `E<n>. <label>`, adds an edge from the old cursor to it
colored `ROUTE_COLORS[n]`, deselects the old cursor, selects
`new_choice_id`, sets `last_choice_id` to it, and increments
`next_ending_id` by exactly one; the Scenario 4 instance behaves as the
claim describes. -/
theorem C4_add_ending_amended :
    (∀ (info : ProjectInfo) (lbl : String) (nc : Int) (c : String),
      hasNode info.graph (.num info.last_choice_id) →
      hasNode info.graph (.num nc) →
      ¬ hasNode info.graph (.estr info.next_ending_id) →
      pyGet ROUTE_COLORS info.next_ending_id = .ok c →
      add_ending info lbl nc =
        ({ info with
          graph := { info.graph with
            nodes := setShape (.num nc) .doublecircle
              (setShape (.num info.last_choice_id) .ellipse
                (info.graph.nodes ++
                  [⟨.estr info.next_ending_id,
                    "E" ++ toString info.next_ending_id ++ ". " ++ lbl,
                    .endingCircle⟩])),
            edges := info.graph.edges ++
              [⟨.num info.last_choice_id, .estr info.next_ending_id,
                some c⟩] },
          last_choice_id := nc,
          next_ending_id := info.next_ending_id + 1 }, none)) ∧
    ((add_ending scenario3 "the end" 1).2 = none ∧
     (⟨.estr 0, "E0. the end", .endingCircle⟩ : Node) ∈
       (add_ending scenario3 "the end" 1).1.graph.nodes ∧
     (⟨.num 2, .estr 0, some "green"⟩ : Edge) ∈
       (add_ending scenario3 "the end" 1).1.graph.edges ∧
     selectedIds (add_ending scenario3 "the end" 1).1.graph = [.num 1] ∧
     (add_ending scenario3 "the end" 1).1.last_choice_id = 1 ∧
     (add_ending scenario3 "the end" 1).1.next_ending_id = 1) := by
  constructor
  · intro info lbl nc c hcur hnc hfresh hc
    exact add_ending_success hfresh hc hcur hnc
  · decide

theorem C4_add_ending_amended_witness :
    (add_ending scenario3 "the end" 1).2 = none := by
  rw [C4_add_ending_amended.1 scenario3 "the end" 1 "green"
    (by decide) (by decide) (by decide) rfl]

/-- C5: every successful `add_choices_and_selection` call allocates
exactly the consecutive ids `last_generated_id + 1 ..
last_generated_id + k` (k the batch size, at least 1) and increases
`last_generated_id` by exactly k; over any successful sequence of calls
from `create_project` the allocated batches concatenate to the
duplicate-free range `1 .. total`, so no numeric choice id is ever
allocated twice. -/
theorem C5_id_allocation_monotonic :
    (∀ (info : ProjectInfo) (choices : List String) (idx : Int)
        (out : ProjectInfo),
      add_choices_and_selection info choices idx = (out, none) →
      (_add_choices_to_graph choices info).1 =
        intRange (info.last_generated_id + 1) choices.length ∧
      1 ≤ choices.length ∧
      out.last_generated_id = info.last_generated_id + choices.length) ∧
    (∀ (name : String) (bs : List (List String × Int)) (out : ProjectInfo)
        (log : List (List Int)),
      runBatches (create_project name) bs = (out, log, none) →
      out.last_generated_id = (totalLen bs : Int) ∧
      log.flatten = intRange 1 (totalLen bs) ∧
      log.flatten.Nodup) := by
  constructor
  · intro info choices idx out h
    exact add_choices_ok_alloc h
  · intro name bs out log h
    obtain ⟨h1, h2⟩ := runBatches_ok bs h
    have hz : (create_project name).last_generated_id = 0 := rfl
    rw [hz] at h1 h2
    rw [show (0 : Int) + 1 = 1 by norm_num] at h2
    refine ⟨by omega, h2, ?_⟩
    rw [h2]
    exact intRange_nodup 1 (totalLen bs)

theorem C5_id_allocation_monotonic_witness :
    (_add_choices_to_graph ["a", "b"] (create_project "p")).1 =
      intRange ((create_project "p").last_generated_id + 1) 2 ∧
    1 ≤ (["a", "b"] : List String).length ∧
    (add_choices_and_selection (create_project "p")
      ["a", "b"] 0).1.last_generated_id =
      (create_project "p").last_generated_id +
        ((["a", "b"] : List String).length : Int) :=
  C5_id_allocation_monotonic.1 (create_project "p") ["a", "b"] 0
    (add_choices_and_selection (create_project "p") ["a", "b"] 0).1
    (by decide)

/-- C6: `link_to_choice` never changes `last_choice_id`,
`last_generated_id`, `next_ending_id`, or any node (so no label or
selection mark) — in every outcome; when the cursor and the target exist
it adds exactly one new uncolored edge cursor→target; when the target is
missing it raises `InvalidNodeId` carrying the target id and leaves the
whole state unchanged. -/
theorem C6_link_to_choice_frame :
    (∀ (info : ProjectInfo) (sel : Int),
      (link_to_choice info sel).1.graph.nodes = info.graph.nodes ∧
      (link_to_choice info sel).1.last_choice_id = info.last_choice_id ∧
      (link_to_choice info sel).1.last_generated_id =
        info.last_generated_id ∧
      (link_to_choice info sel).1.next_ending_id = info.next_ending_id) ∧
    (∀ (info : ProjectInfo) (sel : Int),
      hasNode info.graph (.num info.last_choice_id) →
      hasNode info.graph (.num sel) →
      link_to_choice info sel =
        ({ info with graph := { info.graph with
            edges := info.graph.edges ++
              [⟨.num info.last_choice_id, .num sel, none⟩] } }, none)) ∧
    (∀ (info : ProjectInfo) (sel : Int),
      ¬ hasNode info.graph (.num sel) →
      link_to_choice info sel = (info, some (.invalidNodeId (.num sel)))) := by
  refine ⟨?_, ?_, ?_⟩
  · intro info sel
    obtain ⟨-, hnodes, hlc, hlg, hne⟩ := link_to_choice_frame info sel
    exact ⟨hnodes, hlc, hlg, hne⟩
  · intro info sel hcur hsel
    exact link_to_choice_success hcur hsel
  · intro info sel hmiss
    exact link_to_choice_missing hmiss

theorem C6_link_to_choice_frame_witness :
    link_to_choice scenario3 1 =
      ({ scenario3 with graph := { scenario3.graph with
          edges := scenario3.graph.edges ++ [⟨.num 2, .num 1, none⟩] } },
       none) :=
  C6_link_to_choice_frame.2.1 scenario3 1 (by decide) (by decide)

/-- C8 counterexample: a state whose cursor node exists (node 0, the
cursor) on which `advance_to_choice` to the current `last_choice_id`
raises `IndexError` (palette lookup with `next_ending_id = 2`) and adds
no self-loop edge, so the claim as stated (for every state whose cursor
exists) is false. -/
theorem C8_self_advance_counterexample :
    hasNode { create_project "p" with next_ending_id := 2 }.graph
      (.num { create_project "p" with next_ending_id := 2 }.last_choice_id) ∧
    (advance_to_choice { create_project "p" with next_ending_id := 2 } 0).2 =
      some .indexOutOfRange ∧
    (advance_to_choice { create_project "p" with
      next_ending_id := 2 } 0).1.graph.edges = [] := by
  decide

/-- C8 (amended): for every state satisfying the selection invariant
whose `next_ending_id` is a valid `ROUTE_COLORS` index, calling
`advance_to_choice` with the current `last_choice_id` succeeds, adds a
colored self-loop edge x→x, leaves `last_choice_id` equal to x, and
leaves x the unique selected node (deselect immediately followed by
select of the same node restores its selection). -/
theorem C8_self_advance_amended (info : ProjectInfo) (c : String)
    (hInv : Inv info)
    (hc : pyGet ROUTE_COLORS info.next_ending_id = .ok c) :
    advance_to_choice info info.last_choice_id =
      ({ info with graph := { info.graph with
          nodes := setShape (.num info.last_choice_id) .doublecircle
            (setShape (.num info.last_choice_id) .ellipse info.graph.nodes),
          edges := info.graph.edges ++
            [⟨.num info.last_choice_id, .num info.last_choice_id,
              some c⟩] } },
       none) ∧
    selectedIds (advance_to_choice info info.last_choice_id).1.graph =
      [.num info.last_choice_id] ∧
    (advance_to_choice info info.last_choice_id).1.last_choice_id =
      info.last_choice_id := by
  have hcur : hasNode info.graph (.num info.last_choice_id) := by
    apply mem_ids_of_mem_selList
    rw [show selList info.graph.nodes =
      [NodeId.num info.last_choice_id] from hInv.2]
    exact List.mem_singleton_self _
  have h := advance_to_choice_success hcur hcur hc
  refine ⟨h, ?_, ?_⟩
  · rw [h]
    show selList (setShape (.num info.last_choice_id) .doublecircle
      (setShape (.num info.last_choice_id) .ellipse info.graph.nodes)) = _
    rw [selList_select]
    · rw [setShape_map_id]
      exact hInv.1
    · rw [setShape_map_id]
      exact hcur
    · exact selList_deselect_self hInv.2
  · rw [h]

theorem C8_self_advance_amended_witness :
    selectedIds (advance_to_choice (create_project "p") 0).1.graph =
      [.num 0] :=
  (C8_self_advance_amended (create_project "p") "green"
    (by decide) rfl).2.1

/-- C9: `ROUTE_COLORS` contains exactly the two entries "green" and
"blue", and in every state with `next_ending_id ≥ 2` each edge-coloring
operation fails with `IndexError` at its `ROUTE_COLORS[next_ending_id]`
lookup: `add_choices_and_selection` at its mark-edge step (once the batch
was added and the index resolved), `advance_to_choice` (with existing
cursor and target), and `add_ending` (with a fresh ending id). -/
theorem C9_route_colors_partial :
    ROUTE_COLORS = ["green", "blue"] ∧
    (∀ (info : ProjectInfo) (choices : List String) (idx : Int)
        (ids : List Int) (info1 : ProjectInfo) (sel : Int),
      2 ≤ info.next_ending_id →
      hasNode info.graph (.num info.last_choice_id) →
      _add_choices_to_graph choices info = (ids, info1, none) →
      pyGet ids idx = .ok sel →
      (add_choices_and_selection info choices idx).2 =
        some .indexOutOfRange) ∧
    (∀ (info : ProjectInfo) (sel : Int),
      2 ≤ info.next_ending_id →
      hasNode info.graph (.num info.last_choice_id) →
      hasNode info.graph (.num sel) →
      (advance_to_choice info sel).2 = some .indexOutOfRange) ∧
    (∀ (info : ProjectInfo) (lbl : String) (nc : Int),
      2 ≤ info.next_ending_id →
      ¬ hasNode info.graph (.estr info.next_ending_id) →
      (add_ending info lbl nc).2 = some .indexOutOfRange) := by
  refine ⟨rfl, ?_, ?_, ?_⟩
  · intro info choices idx ids info1 sel hn hcur hac hp
    obtain ⟨hids, -, hlc, -, hne, -, hnodes, -, -⟩ :=
      _add_choices_to_graph_ok hac
    have hcur1 : hasNode info1.graph (.num info1.last_choice_id) := by
      rw [hlc]
      show NodeId.num info.last_choice_id ∈ nodeIds info1.graph
      unfold nodeIds
      rw [hnodes]
      simp only [List.map_append, List.mem_append]
      exact Or.inl hcur
    have hsel1 : hasNode info1.graph (.num sel) := by
      show NodeId.num sel ∈ nodeIds info1.graph
      unfold nodeIds
      rw [hnodes]
      simp only [List.map_append, List.mem_append]
      right
      apply mem_choiceNode_ids
      · rw [hids, intRange_length]
      · exact pyGet_ok_mem hp
    have hn1 : 2 ≤ info1.next_ending_id := by
      rw [hne]
      exact hn
    unfold add_choices_and_selection
    rw [hac]
    dsimp only
    rw [hp]
    dsimp only
    rw [_update_selection_palette hcur1 hsel1 hn1]
  · intro info sel hn hcur hsel
    rw [advance_to_choice_palette hcur hsel hn]
  · intro info lbl nc hn hfresh
    rw [add_ending_palette hfresh hn]

theorem C9_route_colors_partial_witness :
    (advance_to_choice { create_project "p" with next_ending_id := 2 } 0).2 =
      some .indexOutOfRange :=
  C9_route_colors_partial.2.2.1
    { create_project "p" with next_ending_id := 2 } 0
    (by decide) (by decide) (by decide)

end RouteTracker
